import Mathlib

/-
Verification of the gcp-quota-comparer program (src/main.go) against its
specification.  The data model and the operational behaviour of main are
embedded shallowly: the external cloud API and the two regular expressions are
oracles supplied through an environment, machine floats (quota limits) are
modelled as rationals compared by exact equality exactly as the source compares
them, and Go nil-pointer dereferences / out-of-range slice indexing are
modelled as an explicit crash outcome.
-/

namespace QuotaComparer

/-- Quota entry mirroring compute.Quota as read by src/main.go: fields Metric
and Limit.  The float64 limit is modelled as a rational; the source compares
limits by exact equality with no tolerance, mirrored here exactly. -/
structure Quota where
  metric : String
  limit : Rat
deriving DecidableEq

/-- The part of compute.Project that src/main.go reads: its Quotas slice. -/
structure ComputeProject where
  quotas : List Quota
deriving DecidableEq

/-- The part of compute.Region that src/main.go reads: Name and Quotas. -/
structure ComputeRegion where
  name : String
  quotas : List Quota
deriving DecidableEq

/-- The part of cloudresourcemanager.Project that main uses: ProjectId and
Name (the display name, a distinct field from the project id). -/
structure CRMProject where
  projectId : String
  name : String
deriving DecidableEq

/-- The Quotas struct of src/main.go (lines 59-63).  regionList is an Option
because the Go field is a pointer that GetQuotas sets to nil when the region
query fails (line 108).  project is always non-nil when a Quotas value is
constructed (line 111-115), so it is embedded as a plain field. -/
structure Quotas where
  projectId : String
  project : ComputeProject
  regionList : Option (List ComputeRegion)
deriving DecidableEq

/-- The Issue struct of src/main.go (lines 65-72).  region is a plain string
whose Go zero value "" marks a project-level issue: the field is omitted from
the composite literal at lines 235-241 and set to the from-region name at
line 290. -/
structure Issue where
  fromProjectId : String
  toProjectId : String
  region : String
  metric : String
  fromLimit : Rat
  toLimit : Rat
deriving DecidableEq

/-- Abnormal termination of the process: log.Fatalf with a formatted message,
or a Go runtime panic (nil-pointer dereference or out-of-range slice index),
which also exits with a non-zero status but carries no formatted error
message naming a project. -/
inductive RunAbort where
  | fatal (msg : String)
  | crashed
deriving DecidableEq

/-- Oracle for the external compute API consumed by GetQuotas: the outcome of
google.DefaultClient, compute.NewService, Projects.Get (yielding the
project-level quota list) and Regions.List (yielding the region list), the
last two per project id.  Except.error carries the error text. -/
structure ComputeAPI where
  defaultClientError : Option String
  newServiceError : Option String
  getProject : String → Except String (List Quota)
  listRegions : String → Except String (List ComputeRegion)

/-- Oracles for the two regular expressions of main: matchFrom models
r.FindStringSubmatch against regexFrom (some name = the single capture group,
none = no match, in which case the source indexes a nil slice at line 186);
matchTo name id models r1.MatchString id for r1 compiled from
fmt.Sprintf applied to regexTo and the extracted name (line 189). -/
structure Env where
  api : ComputeAPI
  matchFrom : String → Option String
  matchTo : String → String → Bool

/-- Decidable equality of Except values with decidable components, used to
evaluate the model on concrete inputs. -/
instance exceptDecEq {α β : Type} [DecidableEq α] [DecidableEq β] :
    DecidableEq (Except α β) := fun x y =>
  match x, y with
  | .error a, .error b =>
    if h : a = b then .isTrue (by rw [h]) else .isFalse (fun he => h (Except.error.inj he))
  | .ok a, .ok b =>
    if h : a = b then .isTrue (by rw [h]) else .isFalse (fun he => h (Except.ok.inj he))
  | .error _, .ok _ => .isFalse (fun he => Except.noConfusion he)
  | .ok _, .error _ => .isFalse (fun he => Except.noConfusion he)

/-- Observable outcome of a run prefix: the quota fetches performed (project
ids passed to GetQuotas, in call order), the log lines printed, and the
accumulated issues list. -/
structure Step where
  fetches : List String
  logs : List String
  issues : List Issue
deriving DecidableEq

def Step.append (a b : Step) : Step :=
  ⟨a.fetches ++ b.fetches, a.logs ++ b.logs, a.issues ++ b.issues⟩

/-- GetQuotas (src/main.go lines 74-117).  Returns the log lines it prints and
either a fatal abort (compute.NewService failure, line 95) or the pair
(err, quotas) the Go function returns.  A Projects.Get failure logs and
returns (nil, nil) (lines 99-102); a Regions.List failure logs and returns a
Quotas value whose regionList is nil (lines 106-109). -/
def GetQuotas (api : ComputeAPI) (projectId : String) :
    List String × Except RunAbort (Option String × Option Quotas) :=
  match api.defaultClientError with
  | some e => ([], .ok (some ("Error creating Google client: " ++ e), none))
  | none =>
    match api.newServiceError with
    | some e => ([], .error (.fatal ("Failure when getting compute service: " ++ e)))
    | none =>
      match api.getProject projectId with
      | .error e => (["Failure when querying project quotas: " ++ e], .ok (none, none))
      | .ok pq =>
        match api.listRegions projectId with
        | .error e => (["Failure when querying region quotas: " ++ e],
            .ok (none, some ⟨projectId, ⟨pq⟩, none⟩))
        | .ok rs => ([], .ok (none, some ⟨projectId, ⟨pq⟩, some rs⟩))

/-- The to-side quota lookup loop (src/main.go lines 218-223 and 270-275):
the first entry with an equal Metric, none when there is none. -/
def findQuotaByMetric (m : String) : List Quota → Option Quota
  | [] => none
  | q :: rest => if q.metric = m then some q else findQuotaByMetric m rest

/-- The to-side region lookup loop (lines 249-255): the first region with an
equal Name. -/
def findRegionByName (n : String) : List ComputeRegion → Option ComputeRegion
  | [] => none
  | r :: rest => if r.name = n then some r else findRegionByName n rest

/-- The to-project scan (lines 196-203): the first project whose id satisfies
the target pattern. -/
def findToProject (p : String → Bool) : List CRMProject → Option CRMProject
  | [] => none
  | t :: rest => if p t.projectId then some t else findToProject p rest

/-- Project-level quota comparison loop (lines 212-243), returning the log
lines and issues it produces, in iteration order.  The C-style numeric
formatting is abstracted by toString; issues record the Name fields of the
two projects, exactly as the composite literal at lines 235-241 does. -/
def projectQuotaIter (fromP toP : CRMProject) (toQs : List Quota) :
    List Quota → List String × List Issue
  | [] => ([], [])
  | q :: rest =>
    let acc := projectQuotaIter fromP toP toQs rest
    match findQuotaByMetric q.metric toQs with
    | none =>
      (("[" ++ fromP.projectId ++ "]: Metric " ++ q.metric ++ " does not exist") :: acc.1,
       acc.2)
    | some tq =>
      if tq.limit ≠ q.limit then
        (("[" ++ fromP.projectId ++ "] [" ++ q.metric ++ "] (" ++ toString q.limit
            ++ ") limit differs from [" ++ toP.projectId ++ "] [" ++ tq.metric
            ++ "] (" ++ toString tq.limit ++ ")") :: acc.1,
         ⟨fromP.name, toP.name, "", q.metric, q.limit, tq.limit⟩ :: acc.2)
      else acc

/-- Region-level quota comparison loop (lines 264-296) for one matched region
pair: the from-region name goes into the issue (line 290), the to-region name
into the missing-metric message (line 278), exactly as in the source. -/
def regionQuotaIter (fromP toP : CRMProject) (fromRegionName toRegionName : String)
    (toQs : List Quota) : List Quota → List String × List Issue
  | [] => ([], [])
  | q :: rest =>
    let acc := regionQuotaIter fromP toP fromRegionName toRegionName toQs rest
    match findQuotaByMetric q.metric toQs with
    | none =>
      (("[" ++ fromP.projectId ++ "]/" ++ toRegionName ++ ": Metric " ++ q.metric
          ++ " does not exist") :: acc.1,
       acc.2)
    | some tq =>
      if tq.limit ≠ q.limit then
        (("[" ++ fromP.projectId ++ "/" ++ fromRegionName ++ "] [" ++ q.metric ++ "] ("
            ++ toString q.limit ++ ") limit differs from [" ++ toP.projectId ++ "/"
            ++ toRegionName ++ "] [" ++ tq.metric ++ "] (" ++ toString tq.limit ++ ")")
            :: acc.1,
         ⟨fromP.name, toP.name, fromRegionName, q.metric, q.limit, tq.limit⟩ :: acc.2)
      else acc

/-- Outer region loop (lines 246-297): match each from-region by name against
the to-region list; a missing region yields a notice, a matched one runs the
per-metric loop. -/
def regionIter (fromP toP : CRMProject) (toRs : List ComputeRegion) :
    List ComputeRegion → List String × List Issue
  | [] => ([], [])
  | r :: rest =>
    let acc := regionIter fromP toP toRs rest
    match findRegionByName r.name toRs with
    | none =>
      (("[" ++ fromP.projectId ++ "]: Region " ++ r.name ++ " does not exist") :: acc.1,
       acc.2)
    | some tr =>
      let inner := regionQuotaIter fromP toP r.name tr.name tr.quotas r.quotas
      (inner.1 ++ acc.1, inner.2 ++ acc.2)

/-- The full quota diff for one matched pair at both granularities (lines
212-297), in the non-crashing case where both snapshots and both region lists
are present. -/
def diffSnapshots (fromP toP : CRMProject) (fromQs toQs : List Quota)
    (fromRs toRs : List ComputeRegion) : List String × List Issue :=
  let p := projectQuotaIter fromP toP toQs fromQs
  let r := regionIter fromP toP toRs fromRs
  (p.1 ++ r.1, p.2 ++ r.2)

/-- Comparison phase for one matched pair (lines 212-297) including the Go
nil-pointer dereferences: a nil fromProjectQuotas is dereferenced at line 212;
a nil toProjectQuotas at line 218 (on the first project-quota iteration) or
line 249 (on the first region iteration); a nil regionList at line 246 (from
side) or line 249 (to side).  Log lines produced before a crash are not
modelled. -/
def pairCompare (fromP toP : CRMProject) (fromQuotas toQuotas : Option Quotas) :
    Except RunAbort (List String × List Issue) :=
  match fromQuotas with
  | none => .error .crashed
  | some fq =>
    match toQuotas with
    | none =>
      match fq.project.quotas with
      | _ :: _ => .error .crashed
      | [] =>
        match fq.regionList with
        | none => .error .crashed
        | some [] => .ok ([], [])
        | some (_ :: _) => .error .crashed
    | some tq =>
      let p := projectQuotaIter fromP toP tq.project.quotas fq.project.quotas
      match fq.regionList with
      | none => .error .crashed
      | some [] => .ok (p.1, p.2)
      | some (fr :: frs) =>
        match tq.regionList with
        | none => .error .crashed
        | some toRs =>
          let r := regionIter fromP toP toRs (fr :: frs)
          .ok (p.1 ++ r.1, p.2 ++ r.2)

/-- Body of the main loop for one from-project (src/main.go lines 182-299).
The source extracts the capture group (line 186) before fetching the from
snapshot (line 191), which itself happens before the to-project scan (lines
196-203); the to snapshot is fetched only on a match (line 207).  A failed
capture extraction indexes a nil slice, modelled as the crash outcome. -/
def processFrom (env : Env) (toProjects : List CRMProject) (fromP : CRMProject) :
    Step × Option RunAbort :=
  match env.matchFrom fromP.projectId with
  | none => (⟨[], [], []⟩, some .crashed)
  | some projectName =>
    match GetQuotas env.api fromP.projectId with
    | (ls, .error a) => (⟨[fromP.projectId], ls, []⟩, some a)
    | (ls, .ok (some e, _)) =>
      (⟨[fromP.projectId], ls, []⟩,
       some (.fatal ("Error with project " ++ fromP.projectId ++ ": " ++ e)))
    | (ls, .ok (none, fromQuotas)) =>
      match findToProject (env.matchTo projectName) toProjects with
      | none => (⟨[fromP.projectId], ls, []⟩, none)
      | some toP =>
        match GetQuotas env.api toP.projectId with
        | (ls2, .error a) => (⟨[fromP.projectId, toP.projectId], ls ++ ls2, []⟩, some a)
        | (ls2, .ok (some e, _)) =>
          (⟨[fromP.projectId, toP.projectId], ls ++ ls2, []⟩,
           some (.fatal ("Error with project " ++ fromP.projectId ++ ": " ++ e)))
        | (ls2, .ok (none, toQuotas)) =>
          match pairCompare fromP toP fromQuotas toQuotas with
          | .error a => (⟨[fromP.projectId, toP.projectId], ls ++ ls2, []⟩, some a)
          | .ok (cl, ci) =>
            (⟨[fromP.projectId, toP.projectId], ls ++ ls2 ++ cl, ci⟩, none)

/-- The main loop over the from-projects (lines 182-299): process each in
order, stopping at the first abnormal termination (log.Fatalf or panic). -/
def runMain (env : Env) (fromProjects toProjects : List CRMProject) :
    Step × Option RunAbort :=
  match fromProjects with
  | [] => (⟨[], [], []⟩, none)
  | p :: rest =>
    match processFrom env toProjects p with
    | (st, some a) => (st, some a)
    | (st, none) =>
      let t := runMain env rest toProjects
      (st.append t.1, t.2)

/-- A metric name occurs in a quota list. -/
def metricIn (m : String) (qs : List Quota) : Prop := ∃ q ∈ qs, q.metric = m

/-- Two quota lists carry the same metric-name sets. -/
def sameMetricSets (fromQs toQs : List Quota) : Prop :=
  (∀ q ∈ fromQs, metricIn q.metric toQs) ∧ (∀ tq ∈ toQs, metricIn tq.metric fromQs)

/-- Entries with equal metric names carry equal limits. -/
def sameLimits (fromQs toQs : List Quota) : Prop :=
  ∀ q ∈ fromQs, ∀ tq ∈ toQs, tq.metric = q.metric → tq.limit = q.limit

/-- Identical metric sets carrying identical limits. -/
def sameQuotaData (fromQs toQs : List Quota) : Prop :=
  sameMetricSets fromQs toQs ∧ sameLimits fromQs toQs

/-- Identical region-name sets whose same-named regions carry identical quota
data. -/
def sameRegionData (fromRs toRs : List ComputeRegion) : Prop :=
  (∀ r ∈ fromRs, ∃ tr ∈ toRs, tr.name = r.name) ∧
  (∀ tr ∈ toRs, ∃ r ∈ fromRs, r.name = tr.name) ∧
  (∀ r ∈ fromRs, ∀ tr ∈ toRs, tr.name = r.name → sameQuotaData r.quotas tr.quotas)

/- Concrete instances used to exercise the model on explicit inputs.  The
matchers mimic the default patterns: a from-id of the shape prj-dev-X-abcd
extracts X, and the to pattern matches prj-stg-X-abcd. -/

/-- API where every quota fetch succeeds quietly with empty data. -/
def apiQuiet : ComputeAPI :=
  ⟨none, none, fun _ => .ok [], fun _ => .ok []⟩

/-- Matcher oracles for ids prj-a (name a) and prj-b (name b), where only name
a has a matching to-project prj-t. -/
def envAB (api : ComputeAPI) : Env :=
  ⟨api,
   fun pid => if pid = "prj-a" then some "a" else if pid = "prj-b" then some "b" else none,
   fun nm pid => nm == "a" && pid == "prj-t"⟩

/-- API for the C1 counterexample: the to-side project fetch fails, the from
side succeeds with an entirely empty snapshot. -/
def apiToFails : ComputeAPI :=
  ⟨none, none,
   fun pid => if pid = "prj-t" then .error "denied" else .ok [],
   fun _ => .ok []⟩

/-- API for the C1 witness, first part: the to-side project fetch fails while
the from side has one project-level quota. -/
def apiToFailsFromBusy : ComputeAPI :=
  ⟨none, none,
   fun pid => if pid = "prj-t" then .error "denied" else .ok [⟨"CPUS", 24⟩],
   fun _ => .ok []⟩

/-- Environment whose source pattern matches no id at all. -/
def envNoExtract : Env :=
  ⟨apiQuiet, fun _ => none, fun _ _ => false⟩

/-- Environment whose target pattern matches no id at all. -/
def envNoTarget : Env :=
  ⟨apiQuiet,
   fun pid => if pid = "prj-a" then some "a" else none,
   fun _ _ => false⟩

/-- API for the C6 failing input: both project fetches succeed but the
from-side region list query fails. -/
def apiRegionFails : ComputeAPI :=
  ⟨none, none, fun _ => .ok [],
   fun pid => if pid = "prj-a" then .error "region list unavailable" else .ok []⟩

/-- API for the C9 failing input: one shared metric whose limits differ. -/
def apiC9 : ComputeAPI :=
  ⟨none, none,
   fun pid =>
     if pid = "prj-dev-billing-ab12" then .ok [⟨"CPUS", 24⟩]
     else if pid = "prj-stg-billing-cd34" then .ok [⟨"CPUS", 32⟩]
     else .error "unknown project",
   fun _ => .ok []⟩

/-- Environment for the C9 failing input, wiring the default patterns for the
billing pair. -/
def envC9 : Env :=
  ⟨apiC9,
   fun pid => if pid = "prj-dev-billing-ab12" then some "billing" else none,
   fun nm pid => nm == "billing" && pid == "prj-stg-billing-cd34"⟩

/- Lemmas about the lookup loops. -/

theorem findQuotaByMetric_mem : ∀ {qs : List Quota} {m : String} {tq : Quota},
    findQuotaByMetric m qs = some tq → tq ∈ qs ∧ tq.metric = m := by
  intro qs
  induction qs with
  | nil => intro m tq h; cases h
  | cons q rest ih =>
    intro m tq h
    simp only [findQuotaByMetric] at h
    by_cases hq : q.metric = m
    · rw [if_pos hq, Option.some_inj] at h
      subst h
      exact ⟨List.mem_cons_self _ _, hq⟩
    · rw [if_neg hq] at h
      obtain ⟨hmem, hm⟩ := ih h
      exact ⟨List.mem_cons_of_mem _ hmem, hm⟩

theorem findRegionByName_mem : ∀ {rs : List ComputeRegion} {n : String} {tr : ComputeRegion},
    findRegionByName n rs = some tr → tr ∈ rs ∧ tr.name = n := by
  intro rs
  induction rs with
  | nil => intro n tr h; cases h
  | cons r rest ih =>
    intro n tr h
    simp only [findRegionByName] at h
    by_cases hr : r.name = n
    · rw [if_pos hr, Option.some_inj] at h
      subst h
      exact ⟨List.mem_cons_self _ _, hr⟩
    · rw [if_neg hr] at h
      obtain ⟨hmem, hm⟩ := ih h
      exact ⟨List.mem_cons_of_mem _ hmem, hm⟩

theorem findQuotaByMetric_first : ∀ (pre : List Quota) (q : Quota) (post : List Quota)
    (m : String), q.metric = m → (∀ p ∈ pre, p.metric ≠ m) →
    findQuotaByMetric m (pre ++ q :: post) = some q := by
  intro pre
  induction pre with
  | nil =>
    intro q post m hq _
    simp [findQuotaByMetric, hq]
  | cons p rest ih =>
    intro q post m hq hpre
    have hp : p.metric ≠ m := hpre p (List.mem_cons_self _ _)
    simp only [List.cons_append, findQuotaByMetric]
    rw [if_neg hp]
    exact ih q post m hq (fun x hx => hpre x (List.mem_cons_of_mem _ hx))

theorem findRegionByName_first : ∀ (pre : List ComputeRegion) (r : ComputeRegion)
    (post : List ComputeRegion) (n : String), r.name = n → (∀ p ∈ pre, p.name ≠ n) →
    findRegionByName n (pre ++ r :: post) = some r := by
  intro pre
  induction pre with
  | nil =>
    intro r post n hr _
    simp [findRegionByName, hr]
  | cons p rest ih =>
    intro r post n hr hpre
    have hp : p.name ≠ n := hpre p (List.mem_cons_self _ _)
    simp only [List.cons_append, findRegionByName]
    rw [if_neg hp]
    exact ih r post n hr (fun x hx => hpre x (List.mem_cons_of_mem _ hx))

theorem findQuotaByMetric_eq_of_nodup : ∀ {qs : List Quota} {q : Quota},
    (qs.map Quota.metric).Nodup → q ∈ qs → findQuotaByMetric q.metric qs = some q := by
  intro qs
  induction qs with
  | nil => intro q _ hmem; cases hmem
  | cons p rest ih =>
    intro q hnd hmem
    rw [List.map_cons, List.nodup_cons] at hnd
    rcases List.mem_cons.mp hmem with h | h
    · subst h
      simp [findQuotaByMetric]
    · have hp : p.metric ≠ q.metric := by
        intro he
        exact hnd.1 (he ▸ List.mem_map_of_mem Quota.metric h)
      simp only [findQuotaByMetric]
      rw [if_neg hp]
      exact ih hnd.2 h

theorem findRegionByName_eq_of_nodup : ∀ {rs : List ComputeRegion} {r : ComputeRegion},
    (rs.map ComputeRegion.name).Nodup → r ∈ rs → findRegionByName r.name rs = some r := by
  intro rs
  induction rs with
  | nil => intro r _ hmem; cases hmem
  | cons p rest ih =>
    intro r hnd hmem
    rw [List.map_cons, List.nodup_cons] at hnd
    rcases List.mem_cons.mp hmem with h | h
    · subst h
      simp [findRegionByName]
    · have hp : p.name ≠ r.name := by
        intro he
        exact hnd.1 (he ▸ List.mem_map_of_mem ComputeRegion.name h)
      simp only [findRegionByName]
      rw [if_neg hp]
      exact ih hnd.2 h

theorem findToProject_none : ∀ {l : List CRMProject} {p : String → Bool},
    (∀ x ∈ l, p x.projectId = false) → findToProject p l = none := by
  intro l
  induction l with
  | nil => intro p _; rfl
  | cons t rest ih =>
    intro p h
    simp only [findToProject]
    rw [h t (List.mem_cons_self _ _)]
    exact ih (fun x hx => h x (List.mem_cons_of_mem _ hx))

/- Lemmas about the project-level comparison loop. -/

theorem projectQuotaIter_no_issues {fromP toP : CRMProject} {toQs : List Quota} :
    ∀ {fromQs : List Quota},
    (∀ q ∈ fromQs, ∀ tq, findQuotaByMetric q.metric toQs = some tq → tq.limit = q.limit) →
    (projectQuotaIter fromP toP toQs fromQs).2 = [] := by
  intro fromQs
  induction fromQs with
  | nil => intro _; rfl
  | cons q rest ih =>
    intro h
    have hrest := ih (fun x hx => h x (List.mem_cons_of_mem _ hx))
    simp only [projectQuotaIter]
    cases hf : findQuotaByMetric q.metric toQs with
    | none => simpa using hrest
    | some tq =>
      have heq : tq.limit = q.limit := h q (List.mem_cons_self _ _) tq hf
      dsimp only
      rw [if_neg (fun hne => hne heq)]
      simpa using hrest

theorem projectQuotaIter_mem {fromP toP : CRMProject} {toQs : List Quota} :
    ∀ {fromQs : List Quota} {i : Issue}, i ∈ (projectQuotaIter fromP toP toQs fromQs).2 →
    ∃ q ∈ fromQs, ∃ tq, findQuotaByMetric q.metric toQs = some tq ∧
      tq.limit ≠ q.limit ∧ i = ⟨fromP.name, toP.name, "", q.metric, q.limit, tq.limit⟩ := by
  intro fromQs
  induction fromQs with
  | nil => intro i h; cases h
  | cons q rest ih =>
    intro i h
    simp only [projectQuotaIter] at h
    cases hf : findQuotaByMetric q.metric toQs with
    | none =>
      rw [hf] at h
      dsimp only at h
      obtain ⟨x, hx, rest2⟩ := ih h
      exact ⟨x, List.mem_cons_of_mem _ hx, rest2⟩
    | some tq =>
      rw [hf] at h
      dsimp only at h
      by_cases hne : tq.limit ≠ q.limit
      · rw [if_pos hne] at h
        simp only [List.mem_cons] at h
        rcases h with h | h
        · exact ⟨q, List.mem_cons_self _ _, tq, hf, hne, h⟩
        · obtain ⟨x, hx, rest2⟩ := ih h
          exact ⟨x, List.mem_cons_of_mem _ hx, rest2⟩
      · rw [if_neg hne] at h
        obtain ⟨x, hx, rest2⟩ := ih h
        exact ⟨x, List.mem_cons_of_mem _ hx, rest2⟩

theorem projectQuotaIter_missing {fromP toP : CRMProject} {toQs : List Quota} :
    ∀ {fromQs : List Quota} {q : Quota}, q ∈ fromQs →
    findQuotaByMetric q.metric toQs = none →
    ("[" ++ fromP.projectId ++ "]: Metric " ++ q.metric ++ " does not exist")
      ∈ (projectQuotaIter fromP toP toQs fromQs).1 := by
  intro fromQs
  induction fromQs with
  | nil => intro q hmem; cases hmem
  | cons p rest ih =>
    intro q hmem hnone
    simp only [projectQuotaIter]
    rcases List.mem_cons.mp hmem with h | h
    · subst h
      rw [hnone]
      dsimp only
      exact List.mem_cons_self _ _
    · have hrest := ih h hnone
      cases hf : findQuotaByMetric p.metric toQs with
      | none =>
        dsimp only
        exact List.mem_cons_of_mem _ hrest
      | some tq =>
        dsimp only
        by_cases hne : tq.limit ≠ p.limit
        · rw [if_pos hne]
          exact List.mem_cons_of_mem _ hrest
        · rw [if_neg hne]
          exact hrest

theorem projectQuotaIter_single {fromP toP : CRMProject} {toQs : List Quota} :
    ∀ {fromQs : List Quota} {m : String} {fa tb : Quota},
    (fromQs.map Quota.metric).Nodup → fa ∈ fromQs → fa.metric = m →
    findQuotaByMetric m toQs = some tb → tb.limit ≠ fa.limit →
    (∀ q ∈ fromQs, q.metric ≠ m → ∀ tq, findQuotaByMetric q.metric toQs = some tq →
      tq.limit = q.limit) →
    (projectQuotaIter fromP toP toQs fromQs).2
      = [⟨fromP.name, toP.name, "", m, fa.limit, tb.limit⟩] := by
  intro fromQs
  induction fromQs with
  | nil => intro m fa tb _ hmem; cases hmem
  | cons q rest ih =>
    intro m fa tb hnd hmem hfam hftb hne hagree
    rw [List.map_cons, List.nodup_cons] at hnd
    simp only [projectQuotaIter]
    rcases List.mem_cons.mp hmem with h | h
    · subst h
      rw [hfam, hftb]
      dsimp only
      rw [if_pos hne]
      have hrest : (projectQuotaIter fromP toP toQs rest).2 = [] := by
        refine projectQuotaIter_no_issues (fun x hx tq hf => ?_)
        have hxm : x.metric ≠ m := by
          intro he
          exact hnd.1 (by rw [hfam, ← he]; exact List.mem_map_of_mem Quota.metric hx)
        exact hagree x (List.mem_cons_of_mem _ hx) hxm tq hf
      simp [hrest, hfam]
    · have hqm : q.metric ≠ m := by
        intro he
        exact hnd.1 (by rw [he, ← hfam]; exact List.mem_map_of_mem Quota.metric h)
      have hrest := ih hnd.2 h hfam hftb hne
        (fun x hx hxm tq hf => hagree x (List.mem_cons_of_mem _ hx) hxm tq hf)
      cases hf : findQuotaByMetric q.metric toQs with
      | none => simpa using hrest
      | some tq =>
        have heq : tq.limit = q.limit := hagree q (List.mem_cons_self _ _) hqm tq hf
        dsimp only
        rw [if_neg (fun hx => hx heq)]
        simpa using hrest

/- Lemmas about the region-level comparison loops. -/

theorem regionQuotaIter_no_issues {fromP toP : CRMProject} {fn tn : String}
    {toQs : List Quota} : ∀ {fromQs : List Quota},
    (∀ q ∈ fromQs, ∀ tq, findQuotaByMetric q.metric toQs = some tq → tq.limit = q.limit) →
    (regionQuotaIter fromP toP fn tn toQs fromQs).2 = [] := by
  intro fromQs
  induction fromQs with
  | nil => intro _; rfl
  | cons q rest ih =>
    intro h
    have hrest := ih (fun x hx => h x (List.mem_cons_of_mem _ hx))
    simp only [regionQuotaIter]
    cases hf : findQuotaByMetric q.metric toQs with
    | none => simpa using hrest
    | some tq =>
      have heq : tq.limit = q.limit := h q (List.mem_cons_self _ _) tq hf
      dsimp only
      rw [if_neg (fun hne => hne heq)]
      simpa using hrest

theorem regionQuotaIter_mem {fromP toP : CRMProject} {fn tn : String}
    {toQs : List Quota} : ∀ {fromQs : List Quota} {i : Issue},
    i ∈ (regionQuotaIter fromP toP fn tn toQs fromQs).2 →
    ∃ q ∈ fromQs, ∃ tq, findQuotaByMetric q.metric toQs = some tq ∧
      tq.limit ≠ q.limit ∧ i = ⟨fromP.name, toP.name, fn, q.metric, q.limit, tq.limit⟩ := by
  intro fromQs
  induction fromQs with
  | nil => intro i h; cases h
  | cons q rest ih =>
    intro i h
    simp only [regionQuotaIter] at h
    cases hf : findQuotaByMetric q.metric toQs with
    | none =>
      rw [hf] at h
      dsimp only at h
      obtain ⟨x, hx, rest2⟩ := ih h
      exact ⟨x, List.mem_cons_of_mem _ hx, rest2⟩
    | some tq =>
      rw [hf] at h
      dsimp only at h
      by_cases hne : tq.limit ≠ q.limit
      · rw [if_pos hne] at h
        simp only [List.mem_cons] at h
        rcases h with h | h
        · exact ⟨q, List.mem_cons_self _ _, tq, hf, hne, h⟩
        · obtain ⟨x, hx, rest2⟩ := ih h
          exact ⟨x, List.mem_cons_of_mem _ hx, rest2⟩
      · rw [if_neg hne] at h
        obtain ⟨x, hx, rest2⟩ := ih h
        exact ⟨x, List.mem_cons_of_mem _ hx, rest2⟩

theorem regionQuotaIter_missing {fromP toP : CRMProject} {fn tn : String}
    {toQs : List Quota} : ∀ {fromQs : List Quota} {q : Quota}, q ∈ fromQs →
    findQuotaByMetric q.metric toQs = none →
    ("[" ++ fromP.projectId ++ "]/" ++ tn ++ ": Metric " ++ q.metric ++ " does not exist")
      ∈ (regionQuotaIter fromP toP fn tn toQs fromQs).1 := by
  intro fromQs
  induction fromQs with
  | nil => intro q hmem; cases hmem
  | cons p rest ih =>
    intro q hmem hnone
    simp only [regionQuotaIter]
    rcases List.mem_cons.mp hmem with h | h
    · subst h
      rw [hnone]
      dsimp only
      exact List.mem_cons_self _ _
    · have hrest := ih h hnone
      cases hf : findQuotaByMetric p.metric toQs with
      | none =>
        dsimp only
        exact List.mem_cons_of_mem _ hrest
      | some tq =>
        dsimp only
        by_cases hne : tq.limit ≠ p.limit
        · rw [if_pos hne]
          exact List.mem_cons_of_mem _ hrest
        · rw [if_neg hne]
          exact hrest

theorem regionQuotaIter_single {fromP toP : CRMProject} {fn tn : String}
    {toQs : List Quota} : ∀ {fromQs : List Quota} {m : String} {fa tb : Quota},
    (fromQs.map Quota.metric).Nodup → fa ∈ fromQs → fa.metric = m →
    findQuotaByMetric m toQs = some tb → tb.limit ≠ fa.limit →
    (∀ q ∈ fromQs, q.metric ≠ m → ∀ tq, findQuotaByMetric q.metric toQs = some tq →
      tq.limit = q.limit) →
    (regionQuotaIter fromP toP fn tn toQs fromQs).2
      = [⟨fromP.name, toP.name, fn, m, fa.limit, tb.limit⟩] := by
  intro fromQs
  induction fromQs with
  | nil => intro m fa tb _ hmem; cases hmem
  | cons q rest ih =>
    intro m fa tb hnd hmem hfam hftb hne hagree
    rw [List.map_cons, List.nodup_cons] at hnd
    simp only [regionQuotaIter]
    rcases List.mem_cons.mp hmem with h | h
    · subst h
      rw [hfam, hftb]
      dsimp only
      rw [if_pos hne]
      have hrest : (regionQuotaIter fromP toP fn tn toQs rest).2 = [] := by
        refine regionQuotaIter_no_issues (fun x hx tq hf => ?_)
        have hxm : x.metric ≠ m := by
          intro he
          exact hnd.1 (by rw [hfam, ← he]; exact List.mem_map_of_mem Quota.metric hx)
        exact hagree x (List.mem_cons_of_mem _ hx) hxm tq hf
      simp [hrest, hfam]
    · have hqm : q.metric ≠ m := by
        intro he
        exact hnd.1 (by rw [he, ← hfam]; exact List.mem_map_of_mem Quota.metric h)
      have hrest := ih hnd.2 h hfam hftb hne
        (fun x hx hxm tq hf => hagree x (List.mem_cons_of_mem _ hx) hxm tq hf)
      cases hf : findQuotaByMetric q.metric toQs with
      | none => simpa using hrest
      | some tq =>
        have heq : tq.limit = q.limit := hagree q (List.mem_cons_self _ _) hqm tq hf
        dsimp only
        rw [if_neg (fun hx => hx heq)]
        simpa using hrest

theorem regionIter_no_issues {fromP toP : CRMProject} {toRs : List ComputeRegion} :
    ∀ {fromRs : List ComputeRegion},
    (∀ r ∈ fromRs, ∀ tr, findRegionByName r.name toRs = some tr →
      (regionQuotaIter fromP toP r.name tr.name tr.quotas r.quotas).2 = []) →
    (regionIter fromP toP toRs fromRs).2 = [] := by
  intro fromRs
  induction fromRs with
  | nil => intro _; rfl
  | cons r rest ih =>
    intro h
    have hrest := ih (fun x hx => h x (List.mem_cons_of_mem _ hx))
    simp only [regionIter]
    cases hf : findRegionByName r.name toRs with
    | none => simpa using hrest
    | some tr =>
      have hinner := h r (List.mem_cons_self _ _) tr hf
      dsimp only
      simp [hinner, hrest]

theorem regionIter_mem {fromP toP : CRMProject} {toRs : List ComputeRegion} :
    ∀ {fromRs : List ComputeRegion} {i : Issue},
    i ∈ (regionIter fromP toP toRs fromRs).2 →
    ∃ r ∈ fromRs, ∃ tr, findRegionByName r.name toRs = some tr ∧
      i ∈ (regionQuotaIter fromP toP r.name tr.name tr.quotas r.quotas).2 := by
  intro fromRs
  induction fromRs with
  | nil => intro i h; cases h
  | cons r rest ih =>
    intro i h
    simp only [regionIter] at h
    cases hf : findRegionByName r.name toRs with
    | none =>
      rw [hf] at h
      dsimp only at h
      obtain ⟨x, hx, rest2⟩ := ih h
      exact ⟨x, List.mem_cons_of_mem _ hx, rest2⟩
    | some tr =>
      rw [hf] at h
      dsimp only at h
      rcases List.mem_append.mp h with h | h
      · exact ⟨r, List.mem_cons_self _ _, tr, hf, h⟩
      · obtain ⟨x, hx, rest2⟩ := ih h
        exact ⟨x, List.mem_cons_of_mem _ hx, rest2⟩

theorem regionIter_inner_logs {fromP toP : CRMProject} {toRs : List ComputeRegion} :
    ∀ {fromRs : List ComputeRegion} {r : ComputeRegion}, r ∈ fromRs →
    ∀ {tr : ComputeRegion}, findRegionByName r.name toRs = some tr →
    ∀ {s : String}, s ∈ (regionQuotaIter fromP toP r.name tr.name tr.quotas r.quotas).1 →
    s ∈ (regionIter fromP toP toRs fromRs).1 := by
  intro fromRs
  induction fromRs with
  | nil => intro r hmem; cases hmem
  | cons p rest ih =>
    intro r hmem tr hf s hs
    simp only [regionIter]
    rcases List.mem_cons.mp hmem with h | h
    · subst h
      rw [hf]
      dsimp only
      exact List.mem_append_left _ hs
    · have hrest := ih h hf hs
      cases hp : findRegionByName p.name toRs with
      | none =>
        dsimp only
        exact List.mem_cons_of_mem _ hrest
      | some tp =>
        dsimp only
        exact List.mem_append_right _ hrest

theorem regionIter_single {fromP toP : CRMProject} {toRs : List ComputeRegion} :
    ∀ {fromRs : List ComputeRegion} {rStar trStar : ComputeRegion} {m : String}
      {fa tb : Quota},
    (fromRs.map ComputeRegion.name).Nodup → rStar ∈ fromRs →
    findRegionByName rStar.name toRs = some trStar →
    (rStar.quotas.map Quota.metric).Nodup → fa ∈ rStar.quotas → fa.metric = m →
    findQuotaByMetric m trStar.quotas = some tb → tb.limit ≠ fa.limit →
    (∀ q ∈ rStar.quotas, q.metric ≠ m → ∀ tq,
       findQuotaByMetric q.metric trStar.quotas = some tq → tq.limit = q.limit) →
    (∀ r ∈ fromRs, r.name ≠ rStar.name → ∀ tr, findRegionByName r.name toRs = some tr →
       (regionQuotaIter fromP toP r.name tr.name tr.quotas r.quotas).2 = []) →
    (regionIter fromP toP toRs fromRs).2
      = [⟨fromP.name, toP.name, rStar.name, m, fa.limit, tb.limit⟩] := by
  intro fromRs
  induction fromRs with
  | nil => intro rStar trStar m fa tb _ hmem; cases hmem
  | cons r rest ih =>
    intro rStar trStar m fa tb hnd hmem hfr hndq hfa hfam hftb hne hagree hother
    rw [List.map_cons, List.nodup_cons] at hnd
    simp only [regionIter]
    rcases List.mem_cons.mp hmem with h | h
    · subst h
      rw [hfr]
      dsimp only
      have hinner :
          (regionQuotaIter fromP toP rStar.name trStar.name trStar.quotas rStar.quotas).2
            = [⟨fromP.name, toP.name, rStar.name, m, fa.limit, tb.limit⟩] :=
        regionQuotaIter_single hndq hfa hfam hftb hne hagree
      have hrest : (regionIter fromP toP toRs rest).2 = [] := by
        refine regionIter_no_issues (fun x hx tr hfx => ?_)
        have hxm : x.name ≠ rStar.name := by
          intro he
          exact hnd.1 (he ▸ List.mem_map_of_mem ComputeRegion.name hx)
        exact hother x (List.mem_cons_of_mem _ hx) hxm tr hfx
      simp [hinner, hrest]
    · have hrm : r.name ≠ rStar.name := by
        intro he
        exact hnd.1 (he ▸ List.mem_map_of_mem ComputeRegion.name h)
      have hrest := ih hnd.2 h hfr hndq hfa hfam hftb hne hagree
        (fun x hx hxm tr hfx => hother x (List.mem_cons_of_mem _ hx) hxm tr hfx)
      cases hf : findRegionByName r.name toRs with
      | none => simpa using hrest
      | some tr =>
        have hinner := hother r (List.mem_cons_self _ _) hrm tr hf
        dsimp only
        simp [hinner, hrest]

/- Operational lemmas about GetQuotas, processFrom and runMain. -/

theorem GetQuotas_projectError {api : ComputeAPI} {pid e : String}
    (h1 : api.defaultClientError = none) (h2 : api.newServiceError = none)
    (h3 : api.getProject pid = .error e) :
    GetQuotas api pid
      = (["Failure when querying project quotas: " ++ e], .ok (none, none)) := by
  unfold GetQuotas
  rw [h1, h2, h3]

theorem GetQuotas_regionError {api : ComputeAPI} {pid e : String} {qs : List Quota}
    (h1 : api.defaultClientError = none) (h2 : api.newServiceError = none)
    (h3 : api.getProject pid = .ok qs) (h4 : api.listRegions pid = .error e) :
    GetQuotas api pid
      = (["Failure when querying region quotas: " ++ e],
         .ok (none, some ⟨pid, ⟨qs⟩, none⟩)) := by
  unfold GetQuotas
  rw [h1, h2, h3, h4]

theorem GetQuotas_success {api : ComputeAPI} {pid : String} {qs : List Quota}
    {rs : List ComputeRegion}
    (h1 : api.defaultClientError = none) (h2 : api.newServiceError = none)
    (h3 : api.getProject pid = .ok qs) (h4 : api.listRegions pid = .ok rs) :
    GetQuotas api pid = ([], .ok (none, some ⟨pid, ⟨qs⟩, some rs⟩)) := by
  unfold GetQuotas
  rw [h1, h2, h3, h4]

/-- With no client or service error, GetQuotas always returns a nil error
value, so the error checks in main at lines 193 and 208 never fire for quota
fetch failures. -/
theorem GetQuotas_ok_shape {api : ComputeAPI} {pid : String}
    (h1 : api.defaultClientError = none) (h2 : api.newServiceError = none) :
    ∃ ls fq, GetQuotas api pid = (ls, .ok (none, fq)) := by
  cases h3 : api.getProject pid with
  | error e => exact ⟨_, _, GetQuotas_projectError h1 h2 h3⟩
  | ok qs =>
    cases h4 : api.listRegions pid with
    | error e => exact ⟨_, _, GetQuotas_regionError h1 h2 h3 h4⟩
    | ok rs => exact ⟨_, _, GetQuotas_success h1 h2 h3 h4⟩

theorem processFrom_extractFail {env : Env} {toProjects : List CRMProject}
    {fromP : CRMProject} (hm : env.matchFrom fromP.projectId = none) :
    processFrom env toProjects fromP = (⟨[], [], []⟩, some .crashed) := by
  unfold processFrom
  rw [hm]

theorem processFrom_nomatch {env : Env} {toProjects : List CRMProject}
    {fromP : CRMProject} {name : String} {ls : List String} {fq : Option Quotas}
    (hm : env.matchFrom fromP.projectId = some name)
    (h1 : GetQuotas env.api fromP.projectId = (ls, .ok (none, fq)))
    (hf : findToProject (env.matchTo name) toProjects = none) :
    processFrom env toProjects fromP = (⟨[fromP.projectId], ls, []⟩, none) := by
  unfold processFrom
  rw [hm]
  dsimp only
  rw [h1]
  dsimp only
  rw [hf]

theorem processFrom_matched_crash {env : Env} {toProjects : List CRMProject}
    {fromP toP : CRMProject} {name : String} {ls ls2 : List String}
    {fq tq : Option Quotas} {a : RunAbort}
    (hm : env.matchFrom fromP.projectId = some name)
    (h1 : GetQuotas env.api fromP.projectId = (ls, .ok (none, fq)))
    (hf : findToProject (env.matchTo name) toProjects = some toP)
    (h2 : GetQuotas env.api toP.projectId = (ls2, .ok (none, tq)))
    (h3 : pairCompare fromP toP fq tq = .error a) :
    processFrom env toProjects fromP
      = (⟨[fromP.projectId, toP.projectId], ls ++ ls2, []⟩, some a) := by
  unfold processFrom
  rw [hm]
  dsimp only
  rw [h1]
  dsimp only
  rw [hf]
  dsimp only
  rw [h2]
  dsimp only
  rw [h3]

theorem processFrom_matched_ok {env : Env} {toProjects : List CRMProject}
    {fromP toP : CRMProject} {name : String} {ls ls2 cl : List String}
    {fq tq : Option Quotas} {ci : List Issue}
    (hm : env.matchFrom fromP.projectId = some name)
    (h1 : GetQuotas env.api fromP.projectId = (ls, .ok (none, fq)))
    (hf : findToProject (env.matchTo name) toProjects = some toP)
    (h2 : GetQuotas env.api toP.projectId = (ls2, .ok (none, tq)))
    (h3 : pairCompare fromP toP fq tq = .ok (cl, ci)) :
    processFrom env toProjects fromP
      = (⟨[fromP.projectId, toP.projectId], ls ++ ls2 ++ cl, ci⟩, none) := by
  unfold processFrom
  rw [hm]
  dsimp only
  rw [h1]
  dsimp only
  rw [hf]
  dsimp only
  rw [h2]
  dsimp only
  rw [h3]

theorem runMain_cons_abort {env : Env} {p : CRMProject} {rest toProjects : List CRMProject}
    {st : Step} {a : RunAbort} (h : processFrom env toProjects p = (st, some a)) :
    runMain env (p :: rest) toProjects = (st, some a) := by
  unfold runMain
  rw [h]

theorem runMain_cons_ok {env : Env} {p : CRMProject} {rest toProjects : List CRMProject}
    {st : Step} (h : processFrom env toProjects p = (st, none)) :
    runMain env (p :: rest) toProjects
      = (st.append (runMain env rest toProjects).1, (runMain env rest toProjects).2) := by
  simp only [runMain]
  rw [h]

/- Claim theorems. -/

/-- Claim C5: for every pair of quota snapshots with identical metric sets and
identical limits, at project level and in every region, the diff returns the
empty sequence of discrepancies. -/
theorem diff_identical_snapshots_empty
    (fromP toP : CRMProject) (fromQs toQs : List Quota)
    (fromRs toRs : List ComputeRegion)
    (hq : sameQuotaData fromQs toQs) (hr : sameRegionData fromRs toRs) :
    (diffSnapshots fromP toP fromQs toQs fromRs toRs).2 = [] := by
  have hp : (projectQuotaIter fromP toP toQs fromQs).2 = [] := by
    refine projectQuotaIter_no_issues (fun q hq2 tq hf => ?_)
    obtain ⟨hmem, hm⟩ := findQuotaByMetric_mem hf
    exact hq.2 q hq2 tq hmem hm
  have hri : (regionIter fromP toP toRs fromRs).2 = [] := by
    refine regionIter_no_issues (fun r hrm tr hf => ?_)
    obtain ⟨hmem, hn⟩ := findRegionByName_mem hf
    have hsub := hr.2.2 r hrm tr hmem hn
    refine regionQuotaIter_no_issues (fun q hq2 tq hf2 => ?_)
    obtain ⟨hmem2, hm2⟩ := findQuotaByMetric_mem hf2
    exact hsub.2 q hq2 tq hmem2 hm2
  simp [diffSnapshots, hp, hri]

/-- Witness for C5 at a concrete pair of identical snapshots given in
different order on the two sides. -/
theorem diff_identical_snapshots_empty_witness :
    (diffSnapshots ⟨"prj-a", "A"⟩ ⟨"prj-t", "T"⟩
      [⟨"CPUS", 24⟩, ⟨"DISKS_TOTAL_GB", 500⟩]
      [⟨"DISKS_TOTAL_GB", 500⟩, ⟨"CPUS", 24⟩]
      [⟨"us-east1", [⟨"CPUS", 8⟩]⟩] [⟨"us-east1", [⟨"CPUS", 8⟩]⟩]).2 = [] :=
  diff_identical_snapshots_empty _ _ _ _ _ _
    (by unfold sameQuotaData sameMetricSets sameLimits metricIn; decide)
    (by unfold sameRegionData sameQuotaData sameMetricSets sameLimits metricIn; decide)

/-- Claim C3: for every pair of quota snapshots, every issue the diff
constructs is for a metric present in both snapshots being compared (the
project-level lists, or a from-region and the to-region it was matched to),
and every from-metric absent from the corresponding to-side list produces a
logged missing-metric notice instead. -/
theorem diff_discrepancy_metric_present (fromP toP : CRMProject)
    (fromQs toQs : List Quota) (fromRs toRs : List ComputeRegion) :
    (∀ i ∈ (diffSnapshots fromP toP fromQs toQs fromRs toRs).2,
      (i.region = "" ∧ metricIn i.metric fromQs ∧ metricIn i.metric toQs) ∨
      (∃ r ∈ fromRs, ∃ tr, r.name = i.region ∧ findRegionByName r.name toRs = some tr ∧
        metricIn i.metric r.quotas ∧ metricIn i.metric tr.quotas)) ∧
    (∀ q ∈ fromQs, findQuotaByMetric q.metric toQs = none →
      ("[" ++ fromP.projectId ++ "]: Metric " ++ q.metric ++ " does not exist")
        ∈ (diffSnapshots fromP toP fromQs toQs fromRs toRs).1) ∧
    (∀ r ∈ fromRs, ∀ tr, findRegionByName r.name toRs = some tr →
      ∀ q ∈ r.quotas, findQuotaByMetric q.metric tr.quotas = none →
      ("[" ++ fromP.projectId ++ "]/" ++ tr.name ++ ": Metric " ++ q.metric
          ++ " does not exist")
        ∈ (diffSnapshots fromP toP fromQs toQs fromRs toRs).1) := by
  refine ⟨?_, ?_, ?_⟩
  · intro i hi
    rcases List.mem_append.mp hi with hi | hi
    · obtain ⟨q, hq, tq, hf, hne, hieq⟩ := projectQuotaIter_mem hi
      obtain ⟨htqmem, htqm⟩ := findQuotaByMetric_mem hf
      subst hieq
      exact Or.inl ⟨rfl, ⟨q, hq, rfl⟩, ⟨tq, htqmem, htqm⟩⟩
    · obtain ⟨r, hr, tr, hfr, hin⟩ := regionIter_mem hi
      obtain ⟨q, hq, tq, hf, hne, hieq⟩ := regionQuotaIter_mem hin
      obtain ⟨htqmem, htqm⟩ := findQuotaByMetric_mem hf
      subst hieq
      exact Or.inr ⟨r, hr, tr, rfl, hfr, ⟨q, hq, rfl⟩, ⟨tq, htqmem, htqm⟩⟩
  · intro q hq hnone
    exact List.mem_append_left _ (projectQuotaIter_missing hq hnone)
  · intro r hr tr hfr q hq hnone
    exact List.mem_append_right _
      (regionIter_inner_logs hr hfr (regionQuotaIter_missing hq hnone))

/-- Witness for C3 at a concrete input with one matched metric, one metric
missing at project level, and one metric missing inside a matched region:
both missing-metric notices are logged and the single issue is for the shared
metric. -/
theorem diff_discrepancy_metric_present_witness :
    ("[prj-a]: Metric DISKS does not exist"
      ∈ (diffSnapshots ⟨"prj-a", "A"⟩ ⟨"prj-t", "T"⟩
          [⟨"CPUS", 24⟩, ⟨"DISKS", 10⟩] [⟨"CPUS", 32⟩]
          [⟨"us-east1", [⟨"GPUS", 4⟩]⟩] [⟨"us-east1", []⟩]).1) ∧
    ("[prj-a]/us-east1: Metric GPUS does not exist"
      ∈ (diffSnapshots ⟨"prj-a", "A"⟩ ⟨"prj-t", "T"⟩
          [⟨"CPUS", 24⟩, ⟨"DISKS", 10⟩] [⟨"CPUS", 32⟩]
          [⟨"us-east1", [⟨"GPUS", 4⟩]⟩] [⟨"us-east1", []⟩]).1) := by
  have h := diff_discrepancy_metric_present ⟨"prj-a", "A"⟩ ⟨"prj-t", "T"⟩
    [⟨"CPUS", 24⟩, ⟨"DISKS", 10⟩] [⟨"CPUS", 32⟩]
    [⟨"us-east1", [⟨"GPUS", 4⟩]⟩] [⟨"us-east1", []⟩]
  refine ⟨?_, ?_⟩
  · have := h.2.1 ⟨"DISKS", 10⟩ (by decide) (by decide)
    simpa using this
  · have := h.2.2 ⟨"us-east1", [⟨"GPUS", 4⟩]⟩ (by decide) ⟨"us-east1", []⟩
      (by decide) ⟨"GPUS", 4⟩ (by decide) (by decide)
    simpa using this

/-- Claim C4: for every pair of snapshots that agree on all metrics except
exactly one whose limits differ, the diff returns exactly one discrepancy
carrying that metric name and both limits verbatim; inclusion is decided
solely by exact inequality of the two limits.  The first conjunct places the
single differing metric at project level, the second inside one region. -/
theorem diff_single_difference (fromP toP : CRMProject)
    (fromQs toQs : List Quota) (fromRs toRs : List ComputeRegion) :
    (∀ (m : String) (fa tb : Quota),
      (fromQs.map Quota.metric).Nodup → (toQs.map Quota.metric).Nodup →
      sameMetricSets fromQs toQs →
      fa ∈ fromQs → fa.metric = m → tb ∈ toQs → tb.metric = m →
      tb.limit ≠ fa.limit →
      (∀ q ∈ fromQs, q.metric ≠ m → ∀ tq ∈ toQs, tq.metric = q.metric →
        tq.limit = q.limit) →
      sameRegionData fromRs toRs →
      (diffSnapshots fromP toP fromQs toQs fromRs toRs).2
        = [⟨fromP.name, toP.name, "", m, fa.limit, tb.limit⟩]) ∧
    (∀ (m : String) (rStar trStar : ComputeRegion) (fa tb : Quota),
      sameQuotaData fromQs toQs →
      (fromRs.map ComputeRegion.name).Nodup → (toRs.map ComputeRegion.name).Nodup →
      rStar ∈ fromRs → trStar ∈ toRs → trStar.name = rStar.name →
      (rStar.quotas.map Quota.metric).Nodup → (trStar.quotas.map Quota.metric).Nodup →
      fa ∈ rStar.quotas → fa.metric = m → tb ∈ trStar.quotas → tb.metric = m →
      tb.limit ≠ fa.limit →
      (∀ q ∈ rStar.quotas, q.metric ≠ m → ∀ tq ∈ trStar.quotas, tq.metric = q.metric →
        tq.limit = q.limit) →
      (∀ r ∈ fromRs, r.name ≠ rStar.name → ∀ tr ∈ toRs, tr.name = r.name →
        sameLimits r.quotas tr.quotas) →
      (diffSnapshots fromP toP fromQs toQs fromRs toRs).2
        = [⟨fromP.name, toP.name, rStar.name, m, fa.limit, tb.limit⟩]) := by
  constructor
  · intro m fa tb hndF hndT hsets hfa hfam htb htbm hne hagree hreg
    have hftb : findQuotaByMetric m toQs = some tb := by
      rw [← htbm]
      exact findQuotaByMetric_eq_of_nodup hndT htb
    have hproj : (projectQuotaIter fromP toP toQs fromQs).2
        = [⟨fromP.name, toP.name, "", m, fa.limit, tb.limit⟩] := by
      refine projectQuotaIter_single hndF hfa hfam hftb hne ?_
      intro q hq hqm tq hf
      obtain ⟨htqmem, htqm⟩ := findQuotaByMetric_mem hf
      exact hagree q hq hqm tq htqmem htqm
    have hri : (regionIter fromP toP toRs fromRs).2 = [] := by
      refine regionIter_no_issues (fun r hrm tr hf => ?_)
      obtain ⟨hmem, hn⟩ := findRegionByName_mem hf
      have hsub := hreg.2.2 r hrm tr hmem hn
      refine regionQuotaIter_no_issues (fun q hq2 tq hf2 => ?_)
      obtain ⟨hmem2, hm2⟩ := findQuotaByMetric_mem hf2
      exact hsub.2 q hq2 tq hmem2 hm2
    simp [diffSnapshots, hproj, hri]
  · intro m rStar trStar fa tb hq hndF hndT hrs htrs htrn hndq hndtq hfa hfam htb
      htbm hne hagree hother
    have hproj : (projectQuotaIter fromP toP toQs fromQs).2 = [] := by
      refine projectQuotaIter_no_issues (fun q hq2 tq hf => ?_)
      obtain ⟨hmem, hm⟩ := findQuotaByMetric_mem hf
      exact hq.2 q hq2 tq hmem hm
    have hfr : findRegionByName rStar.name toRs = some trStar := by
      rw [← htrn]
      exact findRegionByName_eq_of_nodup hndT htrs
    have hftb : findQuotaByMetric m trStar.quotas = some tb := by
      rw [← htbm]
      exact findQuotaByMetric_eq_of_nodup hndtq htb
    have hri : (regionIter fromP toP toRs fromRs).2
        = [⟨fromP.name, toP.name, rStar.name, m, fa.limit, tb.limit⟩] := by
      refine regionIter_single hndF hrs hfr hndq hfa hfam hftb hne ?_ ?_
      · intro q hq2 hqm tq hf
        obtain ⟨htqmem, htqm⟩ := findQuotaByMetric_mem hf
        exact hagree q hq2 hqm tq htqmem htqm
      · intro r hr hrn tr hf
        obtain ⟨htrmem, htrm⟩ := findRegionByName_mem hf
        have hsl := hother r hr hrn tr htrmem htrm
        refine regionQuotaIter_no_issues (fun x hx tx hfx => ?_)
        obtain ⟨htxmem, htxm⟩ := findQuotaByMetric_mem hfx
        exact hsl x hx tx htxmem htxm
    simp [diffSnapshots, hproj, hri]

/-- Witness for C4: a pair differing only in the CPUS limit at project level
yields exactly that one discrepancy, and a pair differing only in the CPUS
limit of region us-east1 yields exactly that one region discrepancy. -/
theorem diff_single_difference_witness :
    ((diffSnapshots ⟨"prj-a", "A"⟩ ⟨"prj-t", "T"⟩
        [⟨"CPUS", 24⟩, ⟨"DISKS", 10⟩] [⟨"DISKS", 10⟩, ⟨"CPUS", 32⟩] [] []).2
      = [⟨"A", "T", "", "CPUS", 24, 32⟩]) ∧
    ((diffSnapshots ⟨"prj-a", "A"⟩ ⟨"prj-t", "T"⟩
        [⟨"CPUS", 24⟩] [⟨"CPUS", 24⟩]
        [⟨"us-east1", [⟨"CPUS", 8⟩]⟩, ⟨"us-west1", [⟨"CPUS", 2⟩]⟩]
        [⟨"us-west1", [⟨"CPUS", 2⟩]⟩, ⟨"us-east1", [⟨"CPUS", 16⟩]⟩]).2
      = [⟨"A", "T", "us-east1", "CPUS", 8, 16⟩]) := by
  constructor
  · exact (diff_single_difference ⟨"prj-a", "A"⟩ ⟨"prj-t", "T"⟩
      [⟨"CPUS", 24⟩, ⟨"DISKS", 10⟩] [⟨"DISKS", 10⟩, ⟨"CPUS", 32⟩] [] []).1
      "CPUS" ⟨"CPUS", 24⟩ ⟨"CPUS", 32⟩ (by decide) (by decide)
      (by unfold sameMetricSets metricIn; decide)
      (by decide) (by decide) (by decide) (by decide) (by decide) (by decide)
      (by unfold sameRegionData sameQuotaData sameMetricSets sameLimits metricIn; decide)
  · exact (diff_single_difference ⟨"prj-a", "A"⟩ ⟨"prj-t", "T"⟩
      [⟨"CPUS", 24⟩] [⟨"CPUS", 24⟩]
      [⟨"us-east1", [⟨"CPUS", 8⟩]⟩, ⟨"us-west1", [⟨"CPUS", 2⟩]⟩]
      [⟨"us-west1", [⟨"CPUS", 2⟩]⟩, ⟨"us-east1", [⟨"CPUS", 16⟩]⟩]).2
      "CPUS" ⟨"us-east1", [⟨"CPUS", 8⟩]⟩ ⟨"us-east1", [⟨"CPUS", 16⟩]⟩
      ⟨"CPUS", 8⟩ ⟨"CPUS", 16⟩
      (by unfold sameQuotaData sameMetricSets sameLimits metricIn; decide)
      (by decide) (by decide) (by decide) (by decide) (by decide) (by decide)
      (by decide) (by decide) (by decide) (by decide) (by decide) (by decide)
      (by decide)
      (by unfold sameLimits; decide)

/-- Claim C10: when the to-side quota list contains several entries with the
same metric name, the diff compares against the first occurrence in list
order and ignores all later occurrences, and a from-region is likewise
compared against the first to-region with an equal name.  The third conjunct
exhibits this at the level of the project-level diff pass itself. -/
theorem first_occurrence_semantics (fromP toP : CRMProject) :
    (∀ (pre : List Quota) (q : Quota) (post : List Quota) (m : String),
      q.metric = m → (∀ p ∈ pre, p.metric ≠ m) →
      findQuotaByMetric m (pre ++ q :: post) = some q) ∧
    (∀ (pre : List ComputeRegion) (r : ComputeRegion) (post : List ComputeRegion)
       (n : String),
      r.name = n → (∀ p ∈ pre, p.name ≠ n) →
      findRegionByName n (pre ++ r :: post) = some r) ∧
    (∀ (f q : Quota) (pre post : List Quota),
      (∀ p ∈ pre, p.metric ≠ f.metric) → q.metric = f.metric → q.limit ≠ f.limit →
      (projectQuotaIter fromP toP (pre ++ q :: post) [f]).2
        = [⟨fromP.name, toP.name, "", f.metric, f.limit, q.limit⟩]) := by
  refine ⟨findQuotaByMetric_first, findRegionByName_first, ?_⟩
  intro f q pre post hpre hqm hql
  have hf : findQuotaByMetric f.metric (pre ++ q :: post) = some q :=
    findQuotaByMetric_first pre q post f.metric hqm hpre
  simp only [projectQuotaIter, hf]
  rw [if_pos hql]

/-- Witness for C10: with a duplicated CPUS entry on the to side, the lookup
returns the first occurrence and the diff pass records its limit, ignoring
the later entry. -/
theorem first_occurrence_semantics_witness :
    (findQuotaByMetric "CPUS" [⟨"CPUS", 32⟩, ⟨"CPUS", 99⟩] = some ⟨"CPUS", 32⟩) ∧
    (findRegionByName "us-east1" [⟨"us-east1", []⟩, ⟨"us-east1", [⟨"X", 1⟩]⟩]
      = some ⟨"us-east1", []⟩) ∧
    ((projectQuotaIter ⟨"prj-a", "A"⟩ ⟨"prj-t", "T"⟩ [⟨"CPUS", 32⟩, ⟨"CPUS", 99⟩]
        [⟨"CPUS", 24⟩]).2 = [⟨"A", "T", "", "CPUS", 24, 32⟩]) := by
  have h := first_occurrence_semantics ⟨"prj-a", "A"⟩ ⟨"prj-t", "T"⟩
  refine ⟨?_, ?_, ?_⟩
  · exact h.1 [] ⟨"CPUS", 32⟩ [⟨"CPUS", 99⟩] "CPUS" (by decide) (by decide)
  · exact h.2.1 [] ⟨"us-east1", []⟩ [⟨"us-east1", [⟨"X", 1⟩]⟩] "us-east1"
      (by decide) (by decide)
  · exact h.2.2 ⟨"CPUS", 24⟩ ⟨"CPUS", 32⟩ [] [⟨"CPUS", 99⟩]
      (by decide) (by decide) (by decide)

/-- Claim C2 (amended): a from-project whose id the source pattern does not
match terminates the run abnormally through the out-of-range capture access
(a crash with non-zero exit but no formatted error message naming the
project), and no later from-project is processed. -/
theorem pattern_mismatch_crashes_run (env : Env) (rest toProjects : List CRMProject)
    (p : CRMProject) (hm : env.matchFrom p.projectId = none) :
    runMain env (p :: rest) toProjects = (⟨[], [], []⟩, some RunAbort.crashed) :=
  runMain_cons_abort (processFrom_extractFail hm)

/-- Witness for C2 at a concrete unmatched id. -/
theorem pattern_mismatch_crashes_run_witness :
    runMain envNoExtract [⟨"weird-id", "W"⟩, ⟨"prj-b", "B"⟩] []
      = (⟨[], [], []⟩, some RunAbort.crashed) :=
  pattern_mismatch_crashes_run envNoExtract [⟨"prj-b", "B"⟩] [] ⟨"weird-id", "W"⟩ rfl

/-- Counterexample to C2 as stated: on an unmatched id the run result is the
bare crash outcome, which carries no error message, rather than a fatal
error naming the offending project id. -/
theorem pattern_mismatch_no_explicit_fatal :
    (runMain ⟨apiQuiet, fun _ => none, fun _ _ => false⟩ [⟨"bad-id", "B"⟩] []).2
      = some RunAbort.crashed := by decide

/-- Claim C7 (amended): the name matcher selects the first to-project, in the
given order, whose id satisfies the derived target pattern; when none does,
the pair is skipped silently (no notice is logged: the only log lines are
those GetQuotas itself printed, and no issue is recorded) and the run
continues without error. -/
theorem matcher_first_match_and_silent_skip (env : Env) :
    (∀ (pre : List CRMProject) (t : CRMProject) (post : List CRMProject)
       (name : String),
      (∀ x ∈ pre, env.matchTo name x.projectId = false) →
      env.matchTo name t.projectId = true →
      findToProject (env.matchTo name) (pre ++ t :: post) = some t) ∧
    (∀ (toProjects : List CRMProject) (fromP : CRMProject) (name : String)
       (ls : List String) (fq : Option Quotas),
      env.matchFrom fromP.projectId = some name →
      GetQuotas env.api fromP.projectId = (ls, .ok (none, fq)) →
      (∀ x ∈ toProjects, env.matchTo name x.projectId = false) →
      processFrom env toProjects fromP = (⟨[fromP.projectId], ls, []⟩, none)) := by
  constructor
  · intro pre t post name hpre ht
    induction pre with
    | nil => simp [findToProject, ht]
    | cons x rest ih =>
      simp only [List.cons_append, findToProject]
      rw [hpre x (List.mem_cons_self _ _)]
      exact ih (fun y hy => hpre y (List.mem_cons_of_mem _ hy))
  · intro toProjects fromP name ls fq hm h1 hnone
    exact processFrom_nomatch hm h1 (findToProject_none hnone)

/-- Witness for C7: first-match selection on a concrete list with two
satisfying candidates, and a silent skip on a concrete unmatched pair. -/
theorem matcher_first_match_and_silent_skip_witness :
    (findToProject (Env.matchTo (envAB apiQuiet) "a")
        ([⟨"prj-x", "X"⟩] ++ ⟨"prj-t", "T"⟩ :: [⟨"prj-t", "T2"⟩])
      = some ⟨"prj-t", "T"⟩) ∧
    (processFrom envNoTarget [⟨"prj-x", "X"⟩] ⟨"prj-a", "A"⟩
      = (⟨["prj-a"], [], []⟩, none)) := by
  constructor
  · exact (matcher_first_match_and_silent_skip (envAB apiQuiet)).1
      [⟨"prj-x", "X"⟩] ⟨"prj-t", "T"⟩ [⟨"prj-t", "T2"⟩] "a" (by decide) (by decide)
  · exact (matcher_first_match_and_silent_skip envNoTarget).2 [⟨"prj-x", "X"⟩]
      ⟨"prj-a", "A"⟩ "a" [] (some ⟨"prj-a", ⟨[]⟩, some []⟩) rfl rfl (by decide)

/-- Counterexample to C7 as stated: on a concrete no-match run every fetch
succeeds quietly, and the complete run output contains no log line at all, so
no notice about the skipped pair was logged. -/
theorem no_match_skipped_without_notice :
    runMain envNoTarget [⟨"prj-a", "A"⟩] [⟨"prj-x", "X"⟩]
      = (⟨["prj-a"], [], []⟩, none) := by decide

/-- Claim C8 (amended): the to-side snapshot is fetched only after a match is
found, but the from-side snapshot is fetched unconditionally before the
matching scan, so a from-project with no matching to-project still incurs its
own quota fetch. -/
theorem from_fetch_before_match (env : Env) (toProjects : List CRMProject)
    (fromP : CRMProject) (name : String)
    (hdce : env.api.defaultClientError = none)
    (hnse : env.api.newServiceError = none)
    (hm : env.matchFrom fromP.projectId = some name) :
    (findToProject (env.matchTo name) toProjects = none →
      (processFrom env toProjects fromP).1.fetches = [fromP.projectId]) ∧
    (∀ toP, findToProject (env.matchTo name) toProjects = some toP →
      (processFrom env toProjects fromP).1.fetches
        = [fromP.projectId, toP.projectId]) := by
  obtain ⟨ls, fq, h1⟩ := @GetQuotas_ok_shape env.api fromP.projectId hdce hnse
  constructor
  · intro hf
    rw [processFrom_nomatch hm h1 hf]
  · intro toP hf
    obtain ⟨ls2, tq, h2⟩ := @GetQuotas_ok_shape env.api toP.projectId hdce hnse
    cases h3 : pairCompare fromP toP fq tq with
    | error a => rw [processFrom_matched_crash hm h1 hf h2 h3]
    | ok pr =>
      cases pr with
      | mk cl ci => rw [processFrom_matched_ok hm h1 hf h2 h3]

/-- Witness for C8 on concrete runs: with no candidate to-projects only the
from fetch happens, and with a matching candidate both fetches happen with
the to fetch second. -/
theorem from_fetch_before_match_witness :
    ((processFrom (envAB apiQuiet) [] ⟨"prj-a", "A"⟩).1.fetches = ["prj-a"]) ∧
    ((processFrom (envAB apiQuiet) [⟨"prj-t", "T"⟩] ⟨"prj-a", "A"⟩).1.fetches
      = ["prj-a", "prj-t"]) := by
  constructor
  · exact (from_fetch_before_match (envAB apiQuiet) [] ⟨"prj-a", "A"⟩ "a"
      rfl rfl (by decide)).1 (by decide)
  · exact (from_fetch_before_match (envAB apiQuiet) [⟨"prj-t", "T"⟩] ⟨"prj-a", "A"⟩ "a"
      rfl rfl (by decide)).2 ⟨"prj-t", "T"⟩ (by decide)

/-- Counterexample to C8 as stated: with an empty to-project list no match can
exist, yet the run still performs the quota fetch for the from-project. -/
theorem unmatched_from_project_still_fetched :
    (runMain (envAB apiQuiet) [⟨"prj-a", "A"⟩] []).1.fetches = ["prj-a"] := by decide

/-- Claim C1 (amended): for a matched pair, a from-side project-level quota
fetch failure, or a to-side failure while the from snapshot holds at least
one project-level quota or its region fetch did not yield an empty list,
aborts the whole run abnormally (a nil-dereference crash, non-zero exit) and
no later from-project is processed; but when only the to side fails and the
from snapshot is entirely empty, the run silently continues to later
pairs. -/
theorem quota_fetch_failure_behavior (env : Env) (rest toProjects : List CRMProject)
    (fromP toP : CRMProject) (name : String)
    (hdce : env.api.defaultClientError = none)
    (hnse : env.api.newServiceError = none)
    (hm : env.matchFrom fromP.projectId = some name)
    (hf : findToProject (env.matchTo name) toProjects = some toP) :
    (((∃ e, env.api.getProject fromP.projectId = .error e) ∨
      ((∃ e, env.api.getProject toP.projectId = .error e) ∧
        ¬(env.api.getProject fromP.projectId = .ok [] ∧
          env.api.listRegions fromP.projectId = .ok []))) →
      (runMain env (fromP :: rest) toProjects).2 = some RunAbort.crashed ∧
      (runMain env (fromP :: rest) toProjects).1.fetches
        = [fromP.projectId, toP.projectId]) ∧
    (((∃ e, env.api.getProject toP.projectId = .error e) ∧
       env.api.getProject fromP.projectId = .ok [] ∧
       env.api.listRegions fromP.projectId = .ok []) →
      (processFrom env toProjects fromP).2 = none) := by
  constructor
  · intro hcase
    have hcrash : ∃ ls fq ls2 tq,
        GetQuotas env.api fromP.projectId = (ls, .ok (none, fq)) ∧
        GetQuotas env.api toP.projectId = (ls2, .ok (none, tq)) ∧
        pairCompare fromP toP fq tq = .error RunAbort.crashed := by
      rcases hcase with ⟨e, he⟩ | ⟨⟨e, he⟩, hnt⟩
      · obtain ⟨ls2, tq, h2⟩ := @GetQuotas_ok_shape env.api toP.projectId hdce hnse
        refine ⟨_, _, _, _, GetQuotas_projectError hdce hnse he, h2, rfl⟩
      · have h2 := GetQuotas_projectError hdce hnse he
        cases h3 : env.api.getProject fromP.projectId with
        | error e2 =>
          exact ⟨_, _, _, _, GetQuotas_projectError hdce hnse h3, h2, rfl⟩
        | ok fqs =>
          cases h4 : env.api.listRegions fromP.projectId with
          | error e3 =>
            refine ⟨_, _, _, _, GetQuotas_regionError hdce hnse h3 h4, h2, ?_⟩
            cases fqs with
            | nil => rfl
            | cons q qs => rfl
          | ok rl =>
            refine ⟨_, _, _, _, GetQuotas_success hdce hnse h3 h4, h2, ?_⟩
            cases fqs with
            | nil =>
              cases rl with
              | nil => exact absurd ⟨h3, h4⟩ hnt
              | cons r rs => rfl
            | cons q qs => rfl
    obtain ⟨ls, fq, ls2, tq, h1, h2, hpc⟩ := hcrash
    rw [runMain_cons_abort (processFrom_matched_crash hm h1 hf h2 hpc)]
    exact ⟨rfl, rfl⟩
  · rintro ⟨⟨e, he⟩, hfq, hfr⟩
    have h1 := GetQuotas_success hdce hnse hfq hfr
    have h2 := GetQuotas_projectError hdce hnse he
    rw [processFrom_matched_ok hm h1 hf h2 rfl]

/-- Witness for C1: with the to-side fetch failing while the from snapshot
has one quota, the matched run crashes after both fetches; with the to-side
fetch failing and an entirely empty from snapshot, the pair processing
finishes without abort. -/
theorem quota_fetch_failure_behavior_witness :
    ((runMain (envAB apiToFailsFromBusy) [⟨"prj-a", "A"⟩] [⟨"prj-t", "T"⟩]).2
        = some RunAbort.crashed ∧
      (runMain (envAB apiToFailsFromBusy) [⟨"prj-a", "A"⟩] [⟨"prj-t", "T"⟩]).1.fetches
        = ["prj-a", "prj-t"]) ∧
    (processFrom (envAB apiToFails) [⟨"prj-t", "T"⟩] ⟨"prj-a", "A"⟩).2 = none := by
  constructor
  · exact (quota_fetch_failure_behavior (envAB apiToFailsFromBusy) [] [⟨"prj-t", "T"⟩]
      ⟨"prj-a", "A"⟩ ⟨"prj-t", "T"⟩ "a" rfl rfl (by decide) (by decide)).1
      (Or.inr ⟨⟨"denied", by decide⟩, by decide⟩)
  · exact (quota_fetch_failure_behavior (envAB apiToFails) [] [⟨"prj-t", "T"⟩]
      ⟨"prj-a", "A"⟩ ⟨"prj-t", "T"⟩ "a" rfl rfl (by decide) (by decide)).2
      ⟨⟨"denied", by decide⟩, by decide, by decide⟩

/-- Counterexample to C1 as stated: a run with a matched pair whose to-side
project-level quota fetch fails, yet whose from snapshot is entirely empty,
does not abort: it finishes normally and still processes the later
from-project prj-b. -/
theorem quota_fetch_failure_not_always_fatal :
    (runMain (envAB apiToFails) [⟨"prj-a", "A"⟩, ⟨"prj-b", "B"⟩]
        [⟨"prj-t", "T"⟩]).2 = none ∧
    "prj-b" ∈ (runMain (envAB apiToFails) [⟨"prj-a", "A"⟩, ⟨"prj-b", "B"⟩]
        [⟨"prj-t", "T"⟩]).1.fetches := by
  constructor
  · decide
  · decide

/-- Claim C6 (code bug): when the region-list query of a matched from-project
fails, GetQuotas itself does degrade and return successfully (nil error, a
snapshot with a nil regionList), but the run then dereferences that nil
regionList in the region-level comparison and crashes instead of
continuing. -/
theorem region_fetch_failure_crashes_matched_run :
    (GetQuotas apiRegionFails "prj-a").2
      = .ok (none, some ⟨"prj-a", ⟨[]⟩, none⟩) ∧
    (runMain (envAB apiRegionFails) [⟨"prj-a", "A"⟩] [⟨"prj-t", "T"⟩]).2
      = some RunAbort.crashed := by
  constructor
  · decide
  · decide

/-- Claim C9 (code bug): the issues recorded for the matched pair carry the
display Name fields of the two projects ("Billing Dev", "Billing Stg") in
their fromProjectId and toProjectId fields, not the project ids
prj-dev-billing-ab12 and prj-stg-billing-cd34; the region field of the
project-level issue is the empty string as claimed. -/
theorem issue_fields_hold_display_names :
    (runMain envC9 [⟨"prj-dev-billing-ab12", "Billing Dev"⟩]
        [⟨"prj-stg-billing-cd34", "Billing Stg"⟩]).1.issues
      = [⟨"Billing Dev", "Billing Stg", "", "CPUS", 24, 32⟩] := by decide

end QuotaComparer
